import Mathlib

/-!
Verification of the EPUB translation pipeline in
`trans/mobi_epub_preserve_format_translate.py`.

The Python source is shallowly embedded: Python strings are Lean `String`
(sequences of Unicode code points, matching Python's `len` and slicing),
mutable-loop functions become structural recursions, the JSON values read
from the checkpoint log become the inductive `Json`, and the calls to the
remote translation service become oracles `Nat → Option String` mapping an
attempt number to the response text (`none` = the call raised).
-/

/-! ## Python string primitives -/

/-- ASCII lowercase of one character, as used by `str.lower()` on tag names
(tag names in the skip set are ASCII, so the ASCII fragment of Python's
Unicode `lower` suffices). -/
def pyLowerChar (c : Char) : Char :=
  if 65 ≤ c.toNat ∧ c.toNat ≤ 90 then Char.ofNat (c.toNat + 32) else c

/-- `s.lower()` restricted to ASCII letters. -/
def pyLower (s : String) : String :=
  String.mk (s.toList.map pyLowerChar)

/-- Python's whitespace set `" \t\n\r\v\f"` (the ASCII part of `str.strip`
and of the regex classes `\s` / `\S`; the Unicode extras do not occur in
the claims' inputs and are not modeled). -/
def pyIsSpace (c : Char) : Bool :=
  c = ' ' ∨ c = '\t' ∨ c = '\n' ∨ c = '\r' ∨ c = '\x0b' ∨ c = '\x0c'

/-- `re.search(r"\S", s)` is not `None`: the string holds at least one
non-whitespace character.  (The Python test `if not text or ...` is
subsumed: the empty string has no non-whitespace character.) -/
def hasNonWs (s : String) : Bool :=
  s.toList.any (fun c => ¬ pyIsSpace c)

/-- `str.strip()` on a character list. -/
def stripChars (cs : List Char) : List Char :=
  ((cs.dropWhile pyIsSpace).reverse.dropWhile pyIsSpace).reverse

/-- `s.strip()`. -/
def pyStrip (s : String) : String :=
  String.mk (stripChars s.toList)

/-- The scanning loop of `s.split(sep)` for a non-empty separator `sep`:
`acc` holds the current piece reversed, the fuel (instantiated with the
string length, enough since every step consumes at least one character)
makes the recursion structural. -/
def splitGo (sep : List Char) : Nat → List Char → List Char → List (List Char)
  | _, [], acc => [acc.reverse]
  | 0, s, acc => [acc.reverse ++ s]
  | fuel + 1, c :: cs, acc =>
    if sep.isPrefixOf (c :: cs) ∧ ¬ sep.isEmpty then
      acc.reverse :: splitGo sep fuel ((c :: cs).drop sep.length) []
    else
      splitGo sep fuel cs (c :: acc)

/-- `s.split(sep)` for a non-empty separator: split on the leftmost
non-overlapping occurrences. -/
def pySplit (s : String) (sep : String) : List String :=
  (splitGo sep.toList s.toList.length s.toList []).map String.mk

/-- Universal-newline translation performed by `Path.read_text` (text mode,
`newline=None`): `"\r\n"` and a lone `"\r"` both become `"\n"`. -/
def univNewlines : List Char → List Char
  | [] => []
  | ['\r'] => ['\n']
  | '\r' :: '\n' :: rest => '\n' :: univNewlines rest
  | '\r' :: c2 :: rest => '\n' :: univNewlines (c2 :: rest)
  | c :: rest => c :: univNewlines rest

/-- `Path.read_text(encoding="utf-8")` on a file whose bytes decode to `s`:
the decoded text after universal-newline translation. -/
def pyReadText (s : String) : String :=
  String.mk (univNewlines s.toList)

/-! ## Batcher (`batch_texts`, source lines 114-134) -/

/-- The slicing loop of `batch_texts` on an oversized fragment:
`while start < t_len: end = min(start + max_chars, t_len); append t[start:end]`.
The first argument is fuel bounding the number of slices; `batch_texts`
passes the fragment length, which suffices for `max_chars ≥ 1`
(for `max_chars = 0` the Python loop would not terminate at all). -/
def chunkGo (maxChars : Nat) : Nat → List Char → List (List Char)
  | _, [] => []
  | 0, _ :: _ => []
  | fuel + 1, c :: cs => ((c :: cs).take maxChars) :: chunkGo maxChars fuel ((c :: cs).drop maxChars)

/-- The contiguous slices `t[start:end]` of at most `maxChars` characters. -/
def pySlices (t : String) (maxChars : Nat) : List String :=
  (chunkGo maxChars t.length t.toList).map String.mk

/-- The loop body of `batch_texts`, carrying the mutable `buf` and `size`.
Note the oversized branch: the Python code appends the slices and then does
`buf, size = [], 0`, i.e. it resets the buffer WITHOUT flushing it. -/
def batchGo (maxChars : Nat) : List String → List String → Nat → List (List String)
  | [], buf, _ => if buf.isEmpty then [] else [buf]
  | t :: ts, buf, size =>
    if t.length > maxChars then
      ((pySlices t maxChars).map (fun s => [s])) ++ batchGo maxChars ts [] 0
    else if size + t.length + 1 > maxChars ∧ ¬ buf.isEmpty then
      buf :: batchGo maxChars ts [t] t.length
    else
      batchGo maxChars ts (buf ++ [t]) (size + t.length + 1)

/-- `batch_texts(texts, max_chars)`. -/
def batch_texts (texts : List String) (max_chars : Nat) : List (List String) :=
  batchGo max_chars texts [] 0

/-! ## Archive codec (`rezip_epub`, source lines 72-84) -/

inductive Compress where
  | stored
  | deflated
deriving DecidableEq, Repr

structure ZipEntry where
  name : String
  data : String
  comp : Compress
deriving DecidableEq, Repr

/-- A working tree: relative path ↦ file content, listed in `os.walk`
order.  File contents are modeled as strings (see `pyReadText` for the
text-mode read applied to the `mimetype` entry; every other entry is
written from its raw bytes unchanged). -/
abbrev WorkTree := List (String × String)

/-- The `os.walk` loop of `rezip_epub`: every file except the top-level
`mimetype` is written with `ZIP_DEFLATED` and its raw content. -/
def walkWrite : WorkTree → List ZipEntry
  | [] => []
  | p :: ps =>
    if p.1 = "mimetype" then walkWrite ps
    else ⟨p.1, p.2, Compress.deflated⟩ :: walkWrite ps

/-- `rezip_epub(src_dir, out_epub)`: if `src_dir / "mimetype"` exists it is
written first via `writestr` with `ZIP_STORED` and the content produced by
`read_text(encoding="utf-8")`; then the walk writes everything else
deflated. -/
def rezip_epub (tree : WorkTree) : List ZipEntry :=
  (match tree.find? (fun p => p.1 = "mimetype") with
    | some p => [⟨"mimetype", pyReadText p.2, Compress.stored⟩]
    | none => []) ++ walkWrite tree

/-! ## Markup model and extractor (`iter_text_nodes`, `extract_alt_texts`,
source lines 88-112) -/

/-- A parsed markup node: an element with tag, attributes and children, a
text node (`NavigableString`), or a `Comment` (in BeautifulSoup a comment
is itself a `NavigableString` subtype, which is why `iter_text_nodes`
tests `isinstance(node, Comment)` first). -/
inductive MNode where
  | elem (tag : String) (attrs : List (String × String)) (children : List MNode)
  | text (s : String)
  | comment (s : String)

/-- A parsed document (`soup`): the root's children.  The parent of a
top-level node is the `BeautifulSoup` object itself, whose `.name` is
`"[document]"`. -/
abbrev Soup := List MNode

def SKIP_TAGS : List String := ["script", "style", "head", "svg", "math"]

def TRANSLATE_ALT : Bool := true

mutual

/-- Text fragments yielded by `iter_text_nodes` while visiting one node of
`soup.descendants` in pre-order: comments are skipped, a text node is
yielded when its immediate parent's lower-cased tag is not in `SKIP_TAGS`
and it holds a non-whitespace character. -/
def nodeTexts (parentTag : String) : MNode → List String
  | .elem t _ cs => nodeTextsList t cs
  | .text s =>
    if hasNonWs s && !(SKIP_TAGS.contains (pyLower parentTag)) then [s] else []
  | .comment _ => []

def nodeTextsList (parentTag : String) : List MNode → List String
  | [] => []
  | n :: ns => nodeTexts parentTag n ++ nodeTextsList parentTag ns

end

/-- `iter_text_nodes(soup)`, projected to the yielded raw texts (the node
handles are recovered positionally, see `Ref`). -/
def iter_text_nodes (soup : Soup) : List String :=
  nodeTextsList "[document]" soup

mutual

/-- `soup.find_all("img")` in document order, keeping the `alt` values
that are truthy and contain a non-whitespace character. -/
def altTexts : MNode → List String
  | .elem t attrs cs =>
    (if t = "img" then
      match attrs.lookup "alt" with
      | some alt => if hasNonWs alt then [alt] else []
      | none => []
    else []) ++ altTextsList cs
  | .text _ => []
  | .comment _ => []

def altTextsList : List MNode → List String
  | [] => []
  | n :: ns => altTexts n ++ altTextsList ns

end

/-- `extract_alt_texts(soup)`, projected to the attribute values. -/
def extract_alt_texts (soup : Soup) : List String :=
  if TRANSLATE_ALT then altTextsList soup else []

mutual

/-- Removal of every markup comment from a tree (a specification-side
observer used to state that comments never influence extraction). -/
def stripComments : MNode → List MNode
  | .elem t a cs => [.elem t a (stripCommentsList cs)]
  | .text s => [.text s]
  | .comment _ => []

def stripCommentsList : List MNode → List MNode
  | [] => []
  | n :: ns => stripComments n ++ stripCommentsList ns

end

/-! ## Extraction pass of `translate_epub_texts` (source lines 330-360) -/

inductive FragKind where
  | node
  | attr
deriving DecidableEq, Repr

/-- A location handle: which document, which kind of slot, the position of
the slot inside that document's node-fragment (resp. alt-fragment) list,
and the original raw text found there. -/
structure Ref where
  doc : Nat
  kind : FragKind
  pos : Nat
  orig : String
deriving DecidableEq, Repr

/-- One of the two inner `for` loops of the extraction pass, with the
global `total_nodes` counter `c` and preview limit `L` (`L = 0` means no
limit): each fragment is appended, the counter incremented, and the loop
breaks once `L ≠ 0 ∧ c ≥ L` — the check happens AFTER the append, so the
fragment that reaches the limit is still taken.  Returns the fragments
taken and the new counter. -/
def fragTake (L : Nat) : List String → Nat → List String × Nat
  | [], c => ([], c)
  | t :: ts, c =>
    if L ≠ 0 ∧ c + 1 ≥ L then ([t], c + 1)
    else
      let r := fragTake L ts (c + 1)
      (t :: r.1, r.2)

structure ExtractResult where
  node_refs : List Ref
  alt_refs : List Ref
  /-- The fragments in the order the pass appends them to `texts`:
  document by document, node fragments then that document's alt
  fragments.  This observer records the production order of the handles
  (the code's `texts` list is `ref_seq.map Ref.orig`). -/
  ref_seq : List Ref
  texts : List String
  total : Nat

/-- The per-document loop of `translate_epub_texts` (lines 339-360):
for each parsed file, append its text-node fragments to `node_refs` /
`texts`, then — unless the preview limit was reached — its alt fragments
to `alt_refs` / `texts`; break out of everything once the limit is hit. -/
def extractGo (L : Nat) : Nat → Nat → List Soup → ExtractResult
  | _, c, [] => ⟨[], [], [], [], c⟩
  | d, c, soup :: rest =>
    let p1 := fragTake L (iter_text_nodes soup) c
    let nrefs := p1.1.enum.map (fun q => Ref.mk d FragKind.node q.1 q.2)
    let p2 := if L = 0 ∨ p1.2 < L then fragTake L (extract_alt_texts soup) p1.2
              else ([], p1.2)
    let arefs := p2.1.enum.map (fun q => Ref.mk d FragKind.attr q.1 q.2)
    if L ≠ 0 ∧ p2.2 ≥ L then
      ⟨nrefs, arefs, nrefs ++ arefs, p1.1 ++ p2.1, p2.2⟩
    else
      let r := extractGo L (d + 1) p2.2 rest
      ⟨nrefs ++ r.node_refs, arefs ++ r.alt_refs, nrefs ++ arefs ++ r.ref_seq,
        p1.1 ++ p2.1 ++ r.texts, r.total⟩

def extractAll (docs : List Soup) (previewLimit : Nat) : ExtractResult :=
  extractGo previewLimit 0 0 docs

/-! ## Reassembly (`translate_epub_texts`, source lines 391-407) -/

/-- The shared body of the two replacement loops: walk the handles with
the running index `t_i`, stop as soon as `t_i ≥ limit`, and give the
handle the value `translations[t_i]` (an out-of-range index, impossible
after the source's `assert len(translations) == len(texts)`, stops the
walk). -/
def walkRefs {α : Type} (limit : Nat) : List Ref → Nat → List α → List (Ref × α)
  | [], _, _ => []
  | r :: rs, ti, tr =>
    if ti ≥ limit then []
    else
      match tr.get? ti with
      | some v => (r, v) :: walkRefs limit rs (ti + 1) tr
      | none => []

/-- The reassembly of `translate_epub_texts`: FIRST the whole `node_refs`
list (all documents), THEN the whole `alt_refs` list (all documents), one
shared running index into `translations`. -/
def reassemble {α : Type} (node_refs alt_refs : List Ref) (translations : List α)
    (limit : Nat) : List (Ref × α) :=
  walkRefs limit (node_refs ++ alt_refs) 0 translations

/-- The walk the specification describes: the same `(document, handle)`
pairs IN THE ORDER THE EXTRACTOR PRODUCED THEM (per document, node
fragments then that document's alt fragments).  Stated from the spec's
words for comparison with `reassemble`. -/
def specReassemble {α : Type} (ref_seq : List Ref) (translations : List α)
    (limit : Nat) : List (Ref × α) :=
  walkRefs limit ref_seq 0 translations

/-- A two-document working tree: document 0 holds one text node `"a"` and
one image with alt text `"b"`, document 1 holds one text node `"c"`. -/
def twoDocExample : List Soup :=
  [[MNode.text "a", MNode.elem "img" [("alt", "b")] []], [MNode.text "c"]]

/-! ## JSON values and the checkpoint log (source lines 254-266) -/

/-- A JSON value as produced by `json.loads` (numbers restricted to the
integers, the only kind this program writes). -/
inductive Json where
  | null
  | bool (b : Bool)
  | num (n : Int)
  | str (s : String)
  | arr (elems : List Json)
  | obj (fields : List (String × Json))

/-- Python truthiness of a JSON value. -/
def pyTruthy : Json → Bool
  | .null => false
  | .bool b => b
  | .num n => n ≠ 0
  | .str s => ¬ s.toList.isEmpty
  | .arr l => ¬ l.isEmpty
  | .obj l => ¬ l.isEmpty

/-- `rec.get(key)`: `none` when `rec` is not an object or lacks the key;
duplicate keys resolve to the last one, as in a Python dict built by
`json.loads`. -/
def objGet : Json → String → Option Json
  | .obj fields, k => fields.foldl (fun acc p => if p.1 = k then some p.2 else acc) none
  | _, _ => none

/-- Truthiness of `rec.get(key)` (`None` is falsy). -/
def pyTruthyOpt : Option Json → Bool
  | some j => pyTruthy j
  | none => false

/-- The value of a non-empty list of decimal digits; `none` when a
non-digit appears or the list is empty (`int("")` raises). -/
def digitsVal : List Char → Option Nat
  | [] => none
  | cs =>
    if cs.all Char.isDigit then
      some (cs.foldl (fun a c => a * 10 + (c.toNat - 48)) 0)
    else none

/-- `int(s)` on a string: optional surrounding whitespace, an optional
sign, then decimal digits; anything else raises (`none`). -/
def pyIntOfStr (s : String) : Option Int :=
  match stripChars s.toList with
  | '-' :: rest => (digitsVal rest).map (fun n => -(n : Int))
  | '+' :: rest => (digitsVal rest).map (fun n => (n : Int))
  | cs => (digitsVal cs).map (fun n => (n : Int))

/-- `int(v)` on a JSON value: succeeds on integers, booleans
(`int(True) = 1`) and integer-literal strings, raises (`none`)
otherwise. -/
def pyIntOfJson : Json → Option Int
  | .num n => some n
  | .bool b => some (if b then 1 else 0)
  | .str s => pyIntOfStr s
  | _ => none

/-- One line of the checkpoint log: `none` when `json.loads` raises. -/
abbrev CkptLine := Option Json

/-- The body of the resume loop for one line: the line is used iff it
parses, `rec.get("ok")` is truthy, `"batch" in rec`, `rec.get("parts")` is
truthy, and `int(rec["batch"])` does not raise; it then contributes
`(int(rec["batch"]), rec["parts"])`.  Any exception on the way is caught
by the `except Exception: continue`. -/
def recQualify : CkptLine → Option (Int × Json)
  | none => none
  | some j =>
    match objGet j "ok", objGet j "batch", objGet j "parts" with
    | okv, some bv, some pv =>
      if pyTruthyOpt okv ∧ pyTruthy pv then
        (pyIntOfJson bv).map (fun b => (b, pv))
      else none
    | _, _, _ => none

/-- The effect of one log line on the `done` dict: a qualifying line
overwrites the entry for its batch index, any other line leaves the dict
unchanged. -/
def ckptStep (done : Int → Option Json) (l : CkptLine) : Int → Option Json :=
  match recQualify l with
  | some q => fun b => if b = q.1 then some q.2 else done b
  | none => done

/-- The `done` dict after reading the whole checkpoint log. -/
def readCkptDone (lines : List CkptLine) : Int → Option Json :=
  lines.foldl ckptStep (fun _ => none)

/-- The parts of the last qualifying record for index `b`, stated
declaratively: search the reversed log for the first qualifying record
with that index. -/
def lastQualifier (lines : List CkptLine) (b : Int) : Option Json :=
  lines.reverse.findSome?
    (fun l => (recQualify l).bind (fun q => if b = q.1 then some q.2 else none))

/-- `pending_idx = [i for i in range(1, len(batches)+1) if i not in done]`. -/
def pendingIdx (batches : List (List String)) (done : Int → Option Json) : List Nat :=
  (List.range' 1 batches.length).filter (fun i => (done (i : Int)).isNone)

/-- The last log record carrying batch index `b` at all (whatever its
`ok` or `parts` fields say) — the record claim C3's criterion inspects. -/
def lastRecFor (lines : List CkptLine) (b : Int) : Option Json :=
  lines.reverse.findSome?
    (fun l => l.bind (fun j => (objGet j "batch").bind
      (fun bv => (pyIntOfJson bv).bind
        (fun n => if b = n then some j else none))))

/-- The resume criterion exactly as claim C3 states it: the last
checkpoint-log record for this index has `ok = true` and a parts count
equal to the batch's segment count. -/
def specC3Done (lines : List CkptLine) (batches : List (List String)) (i : Nat) : Bool :=
  match lastRecFor lines (i : Int) with
  | some j =>
    (match objGet j "ok" with
     | some (Json.bool true) => true
     | _ => false) &&
    (match objGet j "parts" with
     | some (Json.arr parts) => parts.length == (batches.getD (i - 1) []).length
     | _ => false)
  | none => false

/-- Claim C3 as stated: a batch index is excluded from dispatch iff the
last log record for that index is an ok-record whose parts count matches
the batch's segment count. -/
def C3ClaimStatement : Prop :=
  ∀ (lines : List CkptLine) (batches : List (List String)) (i : Nat),
    i ∈ List.range' 1 batches.length →
    ((i ∉ pendingIdx batches (readCkptDone lines)) ↔ specC3Done lines batches i = true)

/-! ## Response splitting and the retry loop (`_translate_one_batch`,
source lines 178-237) -/

/-- The response handling of one attempt: strip the output text; an empty
result raises; split on the `"\n---\n"` delimiter and strip each part; on
a count mismatch fall back to the non-empty stripped lines; if that count
also mismatches, raise (`none`). -/
def parseResponse (outText : String) (batch : List String) : Option (List String) :=
  let t := pyStrip outText
  if t.toList.isEmpty then none
  else
    let parts := (pySplit t "\n---\n").map pyStrip
    if parts.length = batch.length then some parts
    else
      let partsAlt := ((pySplit t "\n").map pyStrip).filter (fun p => ¬ p.toList.isEmpty)
      if partsAlt.length = batch.length then some partsAlt
      else none

/-- `min(2 ** attempt, 30) + 0.2 * attempt`, the seconds slept after the
failure of attempt number `attempt` (1-based). -/
def waitSeconds (attempt : Nat) : ℚ :=
  min ((2 : ℚ) ^ attempt) 30 + (1 / 5 : ℚ) * attempt

/-- One checkpoint record as written by `_translate_one_batch` via
`json.dumps`: `{"batch": .., "ok": true, "parts": ..}` on success,
`{"batch": .., "ok": false, "error": "max retries reached"}` on
exhaustion. -/
structure CkptRec where
  batch : Int
  ok : Bool
  parts : Option (List String)
  error : Option String
deriving DecidableEq, Repr

/-- The observable outcome of `_translate_one_batch`: the sleeps performed
(in order), the checkpoint records appended, and the returned parts
(`none` = the final `RuntimeError` was raised). -/
structure BatchRunResult where
  sleeps : List ℚ
  recs : List CkptRec
  result : Option (List String)
deriving DecidableEq, Repr

/-- The `for attempt in range(1, max_retries + 1)` loop: `a` is the
current attempt number, the fuel is the number of attempts left.  The
oracle maps an attempt number to the response text of the service call
(`none` = the call raised).  On success the ok-record is appended and the
parts returned; on failure the backoff sleep happens (also after the last
attempt) and the loop continues; after the loop the failure record is
appended and the function raises. -/
def runAttempts (oracle : Nat → Option String) (idx : Int) (batch : List String) :
    Nat → Nat → BatchRunResult
  | _, 0 => ⟨[], [⟨idx, false, none, some "max retries reached"⟩], none⟩
  | a, fuel + 1 =>
    match (oracle a).bind (fun t => parseResponse t batch) with
    | some parts => ⟨[], [⟨idx, true, some parts, none⟩], some parts⟩
    | none =>
      let r := runAttempts oracle idx batch (a + 1) fuel
      ⟨waitSeconds a :: r.sleeps, r.recs, r.result⟩

/-- `_translate_one_batch(batch_index, batch, ...)`. -/
def translateOneBatch (oracle : Nat → Option String) (idx : Int) (batch : List String)
    (maxRetries : Nat) : BatchRunResult :=
  runAttempts oracle idx batch 1 maxRetries

/-! ## Concurrent dispatcher (`translate_text_list_concurrent`,
source lines 239-298) -/

/-- The API-facing events of a run, in order.  The concurrent pool is
modeled by its serialization: every submitted batch runs (the executor
shutdown waits for all futures), and the completion-order nondeterminism
is irrelevant to the claims proved here, which only concern the content
of the per-batch work and its position relative to the self-test. -/
inductive Event where
  | selfTestCall
  | poolStart (workers : Int)
  | batchDispatch (idx : Nat)
  | ckptWrite (rec : CkptRec)
  | repackOut
deriving DecidableEq, Repr

/-- The fresh (non-checkpointed) result for batch `i` among the completed
runs. -/
def freshParts (runs : List (Nat × BatchRunResult)) (i : Nat) : Option (List String) :=
  runs.findSome? (fun p => if p.1 = i then p.2.result else none)

/-- `v` iterated by `outputs.extend(v)`: lists yield their elements,
strings their characters, dicts their keys; other values raise
`TypeError`. -/
def pyIterElems : Json → Option (List Json)
  | .arr l => some l
  | .str s => some (s.toList.map (fun c => Json.str (String.mk [c])))
  | .obj fs => some (fs.map (fun p => Json.str p.1))
  | _ => none

/-- The rebuild loop (lines 292-297): for each batch index in order, a
missing or falsy entry raises, otherwise its elements extend the output. -/
def rebuildGo (get : Nat → Option Json) : List Nat → Except String (List Json)
  | [] => .ok []
  | i :: is =>
    match get i with
    | none => .error "missing batch result"
    | some v =>
      if pyTruthy v then
        match pyIterElems v with
        | some elems => (rebuildGo get is).map (fun rest => elems ++ rest)
        | none => .error "TypeError: value not iterable"
      else .error "missing batch result"

/-- `translate_text_list_concurrent`: batch the items, read the
checkpoint log, dispatch the pending batches through the clamped worker
pool, and rebuild the outputs in batch order.  `oracles i a` is the
response text for batch `i`, attempt `a`. -/
def translate_text_list_concurrent (oracles : Nat → Nat → Option String)
    (items : List String) (max_chars_per_call : Nat) (max_workers : Int)
    (max_retries : Nat) (log : List CkptLine) :
    List Event × Except String (List Json) :=
  let batches := batch_texts items max_chars_per_call
  let done := readCkptDone log
  let pending := pendingIdx batches done
  let runs := pending.map
    (fun i => (i, translateOneBatch (oracles i) (i : Int) (batches.getD (i - 1) []) max_retries))
  let evs :=
    if pending.isEmpty then []
    else
      Event.poolStart (max 1 (min max_workers 25)) ::
        (runs.map (fun p => Event.batchDispatch p.1 :: p.2.recs.map Event.ckptWrite)).flatten
  if runs.any (fun p => p.2.result.isNone) then
    (evs, .error "batch retries exhausted")
  else
    let merged : Nat → Option Json := fun i =>
      match freshParts runs i with
      | some parts => some (Json.arr (parts.map Json.str))
      | none => done (i : Int)
    (evs, rebuildGo merged (List.range' 1 batches.length))

/-! ## Self-test and pipeline orchestrator (`openai_self_test` lines
153-172, `translate_epub_texts` lines 311-425) -/

/-- `openai_self_test`: the call's response (`none` = raised), stripped;
an empty result raises. -/
def openai_self_test (resp : Option String) : Except String String :=
  match resp with
  | none => .error "self-test call raised"
  | some t =>
    if (pyStrip t).toList.isEmpty then .error "self-test returned blank output"
    else .ok (pyStrip t)

/-- Inputs of one `translate_epub_texts` run. -/
structure PipeInput where
  docs : List Soup
  previewLimit : Nat
  maxCharsPerCall : Nat
  maxWorkers : Int
  maxRetries : Nat
  /-- Response of the self-test service call (`none` = it raised). -/
  selfTest : Option String
  /-- Responses of the per-batch service calls, by batch index and
  attempt number. -/
  oracles : Nat → Nat → Option String
  /-- Content of `translated_batches.jsonl` at run start (empty list when
  the file does not exist). -/
  log : List CkptLine

/-- `translate_epub_texts`: extract, run the self-test, and — when there
is anything to translate — dispatch and reassemble.  Returns the ordered
event trace and either the applied replacements or the raised error. -/
def translate_epub_texts (inp : PipeInput) :
    List Event × Except String (List (Ref × Json)) :=
  let ext := extractAll inp.docs inp.previewLimit
  match openai_self_test inp.selfTest with
  | .error e => ([Event.selfTestCall], .error e)
  | .ok _ =>
    if ext.texts.isEmpty then
      ([Event.selfTestCall, Event.repackOut], .ok [])
    else
      let d := translate_text_list_concurrent inp.oracles ext.texts
        inp.maxCharsPerCall inp.maxWorkers inp.maxRetries inp.log
      match d.2 with
      | .error e => (Event.selfTestCall :: d.1, .error e)
      | .ok translations =>
        if translations.length = ext.texts.length then
          let limit := if inp.previewLimit = 0 then ext.texts.length else inp.previewLimit
          (Event.selfTestCall :: d.1 ++ [Event.repackOut],
            .ok (reassemble ext.node_refs ext.alt_refs translations limit))
        else
          (Event.selfTestCall :: d.1, .error "assert len mismatch")

/-- The worker count the dispatcher actually uses when batches are
pending: `max_workers = max(1, min(int(max_workers), 25))` (line 269). -/
def effectiveMaxWorkers (requested : Int) : Int :=
  max 1 (min requested 25)

/-! # Theorems -/

/-! ## C1 — batcher flattening (code evaluated at the failing input) -/

/-- C1: the claim (and spec §4.3) require that when an oversized fragment
arrives, the pending buffer is first flushed as a batch of its own.  The
code instead resets `buf, size = [], 0` without flushing: on
`texts = ["ab", "cdefgh"]` with `max_chars = 3` the buffered `"ab"` is
silently discarded and the concatenation of all segments no longer
reproduces the input. -/
theorem batch_texts_drops_pending_buffer :
    batch_texts ["ab", "cdefgh"] 3 = [["cde"], ["fgh"]] ∧
    "ab" ∉ (batch_texts ["ab", "cdefgh"] 3).flatten := by
  decide

/-! ## C4 — response segment-count mismatch is never accepted -/

/-- C4: an attempt's response is accepted only with exactly the batch's
segment count; if the delimiter split mismatches and the non-empty-line
fallback also mismatches, the attempt fails (raises), never padding or
truncating. -/
theorem parseResponse_rejects_mismatch (outText : String) (batch : List String) :
    (∀ parts, parseResponse outText batch = some parts → parts.length = batch.length) ∧
    ((pySplit (pyStrip outText) "\n---\n").length ≠ batch.length ∧
      (((pySplit (pyStrip outText) "\n").map pyStrip).filter
        (fun p => ¬ p.toList.isEmpty)).length ≠ batch.length →
      parseResponse outText batch = none) := by
  constructor
  · intro parts h
    simp only [parseResponse] at h
    split_ifs at h with h0 h1 h2
    · rw [← Option.some.inj h]
      exact h1
    · rw [← Option.some.inj h]
      exact h2
  · rintro ⟨hd, hf⟩
    simp only [parseResponse]
    split_ifs with h0 h1
    · rfl
    · rw [List.length_map] at h1
      exact absurd h1 hd
    · rfl

/-- Witness for C4 at a concrete mismatching response. -/
theorem parseResponse_rejects_mismatch_witness :
    parseResponse "x" ["a", "b"] = none :=
  (parseResponse_rejects_mismatch "x" ["a", "b"]).2 ⟨by decide, by decide⟩

/-! ## C8 — worker-pool clamp -/

/-- No event produced by the per-batch dispatch work is a `poolStart`. -/
theorem no_pool_in_dispatch_events (runs : List (Nat × BatchRunResult)) (w : Int) :
    Event.poolStart w ∉
      (runs.map (fun p => Event.batchDispatch p.1 :: p.2.recs.map Event.ckptWrite)).flatten := by
  intro h
  rw [List.mem_flatten] at h
  obtain ⟨l, hl, hw⟩ := h
  rw [List.mem_map] at hl
  obtain ⟨p, _, rfl⟩ := hl
  rw [List.mem_cons] at hw
  rcases hw with h | h
  · exact Event.noConfusion h
  · rw [List.mem_map] at h
    obtain ⟨r, _, h⟩ := h
    exact Event.noConfusion h

/-- The event component of the dispatcher. -/
theorem ttlc_events (oracles : Nat → Nat → Option String) (items : List String)
    (mc : Nat) (mw : Int) (mr : Nat) (log : List CkptLine) :
    (translate_text_list_concurrent oracles items mc mw mr log).1 =
      (if (pendingIdx (batch_texts items mc) (readCkptDone log)).isEmpty then []
       else
        Event.poolStart (max 1 (min mw 25)) ::
          (((pendingIdx (batch_texts items mc) (readCkptDone log)).map
            (fun i => (i, translateOneBatch (oracles i) (i : Int)
              ((batch_texts items mc).getD (i - 1) []) mr))).map
            (fun p => Event.batchDispatch p.1 :: p.2.recs.map Event.ckptWrite)).flatten) := by
  simp only [translate_text_list_concurrent]
  split <;> rfl

/-- C8: whenever the dispatcher starts its worker pool, the worker count
is exactly `max(1, min(requested, 25))`, hence always between 1 and 25
regardless of the requested value. -/
theorem max_workers_clamped (oracles : Nat → Nat → Option String) (items : List String)
    (mc : Nat) (mw : Int) (mr : Nat) (log : List CkptLine) (w : Int)
    (h : Event.poolStart w ∈ (translate_text_list_concurrent oracles items mc mw mr log).1) :
    w = effectiveMaxWorkers mw ∧ 1 ≤ w ∧ w ≤ 25 := by
  rw [ttlc_events] at h
  split at h
  · exact absurd h (List.not_mem_nil _)
  · rw [List.mem_cons] at h
    rcases h with h | h
    · rw [Event.poolStart.injEq] at h
      subst h
      exact ⟨rfl, le_max_left _ _, max_le (by norm_num) (min_le_right _ _)⟩
    · exact absurd h (no_pool_in_dispatch_events _ _)

/-- Witness for C8: a requested value of 10 with one pending batch. -/
theorem max_workers_clamped_witness :
    (10 : Int) = effectiveMaxWorkers 10 ∧ 1 ≤ (10 : Int) ∧ (10 : Int) ≤ 25 :=
  max_workers_clamped (fun _ _ => some "z") ["a"] 10 10 1 [] 10 (by decide)

/-! ## C5 — repacked archive: mimetype first, stored -/

/-- Universal-newline translation is the identity on carriage-return-free
content. -/
theorem univNewlines_no_cr (cs : List Char) (h : cs.all (fun c => c ≠ '\r') = true) :
    univNewlines cs = cs := by
  induction cs using univNewlines.induct with
  | case1 => rfl
  | case2 => simp at h
  | case3 rest ih => simp at h
  | case4 c2 rest hne ih => simp at h
  | case5 c rest h1 h2 h3 ih =>
    simp only [List.all_cons, Bool.and_eq_true, decide_eq_true_eq] at h
    rw [univNewlines.eq_5 c rest h1 h2 h3, ih h.2]

/-- Every entry emitted by the walk loop is deflated and is not the
top-level `mimetype`. -/
theorem walkWrite_deflated (tree : WorkTree) :
    ∀ e ∈ walkWrite tree, e.comp = Compress.deflated ∧ e.name ≠ "mimetype" := by
  induction tree with
  | nil => intro e he; exact absurd he (List.not_mem_nil _)
  | cons p ps ih =>
    intro e he
    rw [walkWrite] at he
    by_cases hp : p.1 = "mimetype"
    · rw [if_pos hp] at he
      exact ih e he
    · rw [if_neg hp] at he
      rcases List.mem_cons.mp he with h | h
      · subst h
        exact ⟨rfl, hp⟩
      · exact ih e h

/-- C5 counterexample: the claim's "exact original byte content" fails.
`read_text` performs universal-newline translation, so a `mimetype` file
containing `"a\r\nb"` is written back as `"a\nb"`. -/
theorem rezip_not_byte_exact :
    rezip_epub [("mimetype", "a\r\nb"), ("x", "y")] =
      [⟨"mimetype", "a\nb", Compress.stored⟩, ⟨"x", "y", Compress.deflated⟩] ∧
    ¬ (rezip_epub [("mimetype", "a\r\nb"), ("x", "y")]).head? =
        some ⟨"mimetype", "a\r\nb", Compress.stored⟩ := by
  constructor
  · rfl
  · decide

/-- C5 amended: when the working tree holds a `mimetype` file, the
repacked archive's first entry is `mimetype`, stored uncompressed, with
the file's text read under universal-newline translation (equal to the
original bytes whenever they contain no carriage return — in particular
for the empty 0-byte entry); every other entry is written deflated. -/
theorem rezip_mimetype_first_stored (tree : WorkTree) (content : String)
    (h : (tree.find? (fun p => p.1 = "mimetype")).map Prod.snd = some content) :
    ∃ rest, rezip_epub tree = ⟨"mimetype", pyReadText content, Compress.stored⟩ :: rest ∧
      (∀ e ∈ rest, e.comp = Compress.deflated ∧ e.name ≠ "mimetype") ∧
      (content.toList.all (fun c => c ≠ '\r') = true → pyReadText content = content) := by
  refine ⟨walkWrite tree, ?_, walkWrite_deflated tree, ?_⟩
  · rw [rezip_epub]
    cases hfind : tree.find? (fun p => p.1 = "mimetype") with
    | none => rw [hfind] at h; exact Option.noConfusion h
    | some p =>
      rw [hfind] at h
      have hc : p.2 = content := Option.some.inj h
      simp [hfind, hc]
  · intro hcr
    show String.mk (univNewlines content.toList) = content
    rw [univNewlines_no_cr content.toList hcr]
    rfl

/-- Witness for C5 (amended) with a 0-byte `mimetype`. -/
theorem rezip_mimetype_first_stored_witness :
    (rezip_epub [("mimetype", ""), ("OEBPS/ch1.xhtml", "<p>hi</p>")]).head? =
      some ⟨"mimetype", "", Compress.stored⟩ := by
  obtain ⟨rest, heq, _, hexact⟩ :=
    rezip_mimetype_first_stored [("mimetype", ""), ("OEBPS/ch1.xhtml", "<p>hi</p>")] ""
      (by decide)
  rw [heq, hexact (by decide)]
  rfl

/-! ## C9 — comments are never extracted -/

/-- `nodeTextsList` distributes over append. -/
theorem nodeTextsList_append (p : String) (xs ys : List MNode) :
    nodeTextsList p (xs ++ ys) = nodeTextsList p xs ++ nodeTextsList p ys := by
  induction xs with
  | nil => simp [nodeTextsList]
  | cons n ns ih => simp [nodeTextsList, ih]

/-- `altTextsList` distributes over append. -/
theorem altTextsList_append (xs ys : List MNode) :
    altTextsList (xs ++ ys) = altTextsList xs ++ altTextsList ys := by
  induction xs with
  | nil => simp [altTextsList]
  | cons n ns ih => simp [altTextsList, ih]

mutual

theorem nodeTexts_strip (p : String) (n : MNode) :
    nodeTextsList p (stripComments n) = nodeTexts p n := by
  cases n with
  | elem t a cs => simp [stripComments, nodeTexts, nodeTextsList, nodeTextsList_strip t cs]
  | text s => simp [stripComments, nodeTexts, nodeTextsList]
  | comment s => simp [stripComments, nodeTexts, nodeTextsList]

theorem nodeTextsList_strip (p : String) (ns : List MNode) :
    nodeTextsList p (stripCommentsList ns) = nodeTextsList p ns := by
  cases ns with
  | nil => simp [stripCommentsList]
  | cons n ns =>
    rw [stripCommentsList, nodeTextsList_append, nodeTexts_strip p n,
      nodeTextsList_strip p ns, nodeTextsList]

end

mutual

theorem altTexts_strip (n : MNode) :
    altTextsList (stripComments n) = altTexts n := by
  cases n with
  | elem t a cs => simp [stripComments, altTexts, altTextsList, altTextsList_strip cs]
  | text s => simp [stripComments, altTexts, altTextsList]
  | comment s => simp [stripComments, altTexts, altTextsList]

theorem altTextsList_strip (ns : List MNode) :
    altTextsList (stripCommentsList ns) = altTextsList ns := by
  cases ns with
  | nil => simp [stripCommentsList]
  | cons n ns =>
    rw [stripCommentsList, altTextsList_append, altTexts_strip n,
      altTextsList_strip ns, altTextsList]

end

/-- C9: the extractor never yields a fragment originating from a comment
node — removing every markup comment from a document (whatever its text,
including non-whitespace text) changes neither the extracted text-node
fragments nor the extracted alt fragments, so comments are never sent for
translation and never rewritten. -/
theorem iter_text_nodes_skips_comments (soup : Soup) :
    iter_text_nodes (stripCommentsList soup) = iter_text_nodes soup ∧
    extract_alt_texts (stripCommentsList soup) = extract_alt_texts soup := by
  constructor
  · exact nodeTextsList_strip "[document]" soup
  · show (if TRANSLATE_ALT then altTextsList (stripCommentsList soup) else []) = _
    rw [altTextsList_strip soup]
    rfl

/-! ## C3 / C10 — resume criterion and log-reading totality -/

/-- `findSome?` over an append searches the left part first. -/
theorem findSome?_append {α β : Type} (f : α → Option β) (xs ys : List α) :
    (xs ++ ys).findSome? f =
      (match xs.findSome? f with
       | some v => some v
       | none => ys.findSome? f) := by
  induction xs with
  | nil => simp [List.findSome?]
  | cons x xs ih =>
    rw [List.cons_append, List.findSome?_cons, List.findSome?_cons]
    cases f x with
    | some v => rfl
    | none => exact ih

/-- Folding `ckptStep` and then looking one index up gives the last
qualifying record for that index, falling back to the initial dict. -/
theorem ckptFold (b : Int) (lines : List CkptLine) :
    ∀ m : Int → Option Json,
      lines.foldl ckptStep m b =
        (match lastQualifier lines b with
         | some v => some v
         | none => m b) := by
  induction lines with
  | nil => intro m; simp [lastQualifier, List.findSome?]
  | cons l ls ih =>
    intro m
    rw [List.foldl_cons, ih (ckptStep m l)]
    have hrev : lastQualifier (l :: ls) b =
        (match lastQualifier ls b with
         | some v => some v
         | none => (recQualify l).bind (fun q => if b = q.1 then some q.2 else none)) := by
      show ((l :: ls).reverse.findSome? _) = _
      rw [List.reverse_cons, findSome?_append]
      cases h1 : lastQualifier ls b with
      | some v => rw [show ls.reverse.findSome? _ = some v from h1]
      | none =>
        rw [show ls.reverse.findSome? _ = none from h1]
        dsimp only
        rw [List.findSome?_cons]
        cases (recQualify l).bind (fun q => if b = q.1 then some q.2 else none) <;> rfl
    rw [hrev]
    cases h1 : lastQualifier ls b with
    | some v => rfl
    | none =>
      cases h2 : recQualify l with
      | some q =>
        by_cases hb : b = q.1
        · simp [ckptStep, h2, hb]
        · simp [ckptStep, h2, hb]
      | none => simp [ckptStep, h2]

/-- The `done` dict holds, for each index, exactly the parts of the last
qualifying log record for that index. -/
theorem readCkptDone_apply (lines : List CkptLine) (b : Int) :
    readCkptDone lines b = lastQualifier lines b := by
  rw [readCkptDone, ckptFold b lines]
  cases h : lastQualifier lines b with
  | some v => rfl
  | none => rfl

/-- C3 counterexample: the claim's criterion is false on the code.  With
one batch of two segments and a log whose only record is
`{"ok": true, "batch": 1, "parts": ["x"]}` — one part, mismatching the
batch's two segments — the code still treats batch 1 as done (it never
compares the parts count to the segment count), while the claim requires
it to be dispatched as pending. -/
theorem readCkpt_claim_false : ¬ C3ClaimStatement := by
  intro h
  have h2 := (h [some (Json.obj [("ok", Json.bool true), ("batch", Json.num 1),
      ("parts", Json.arr [Json.str "x"])])] [["a", "b"]] 1 (by decide)).mp (by decide)
  exact absurd h2 (by decide)

/-- C3 amended: a batch index is treated as done (excluded from dispatch)
iff the log holds at least one record for that index that parses as JSON
with truthy `ok`, a `batch` key and truthy `parts`; the parts kept are
those of the LAST such record.  The parts count is never compared to the
batch's segment count, and a later non-qualifying record (e.g. `ok=false`)
does not clear an earlier success. -/
theorem readCkpt_done_characterization (lines : List CkptLine)
    (batches : List (List String)) :
    (∀ b : Int, readCkptDone lines b = lastQualifier lines b) ∧
    (∀ i : Nat, i ∈ pendingIdx batches (readCkptDone lines) ↔
      (i ∈ List.range' 1 batches.length ∧ lastQualifier lines (i : Int) = none)) := by
  refine ⟨readCkptDone_apply lines, fun i => ?_⟩
  rw [pendingIdx, List.mem_filter]
  rw [readCkptDone_apply lines (i : Int)]
  cases h : lastQualifier lines (i : Int) with
  | some v => simp [h]
  | none => simp [h]

/-- Witness for C3 (amended) on a concrete log and batch list. -/
theorem readCkpt_done_characterization_witness :
    readCkptDone [] (1 : Int) = lastQualifier [] (1 : Int) ∧
    (1 ∈ pendingIdx [["a"]] (readCkptDone []) ↔
      (1 ∈ List.range' 1 1 ∧ lastQualifier [] ((1 : Nat) : Int) = none)) :=
  ⟨(readCkpt_done_characterization [] [["a"]]).1 1,
    (readCkpt_done_characterization [] [["a"]]).2 1⟩

/-- `findSome?` ignores elements on which the scanner returns `none`. -/
theorem findSome?_filter {α β : Type} (f : α → Option β) (p : α → Bool)
    (hp : ∀ x, p x = false → f x = none) (xs : List α) :
    (xs.filter p).findSome? f = xs.findSome? f := by
  induction xs with
  | nil => rfl
  | cons x xs ih =>
    cases hx : p x with
    | true => rw [List.filter_cons_of_pos hx, List.findSome?_cons, List.findSome?_cons]
              cases f x <;> simp [ih]
    | false =>
      rw [List.filter_cons_of_neg (by simp [hx]), List.findSome?_cons, hp x hx, ih]

/-- C10: reading the checkpoint log is insensitive to every line that is
not valid JSON or whose record lacks a truthy `ok`, a `batch` key
convertible to an integer, or truthy `parts` — such lines are skipped
with no effect (and the reading loop is a total function, so no log
content can abort a resume). -/
theorem readCkpt_total_skips_invalid (lines : List CkptLine) :
    readCkptDone lines = readCkptDone (lines.filter (fun l => (recQualify l).isSome)) := by
  funext b
  rw [readCkptDone_apply, readCkptDone_apply]
  show lines.reverse.findSome? _ = (lines.filter _).reverse.findSome? _
  rw [← List.filter_reverse]
  rw [findSome?_filter _ _ ?_ lines.reverse]
  intro x hx
  cases h : recQualify x with
  | some q => simp [h] at hx
  | none => rfl

/-! ## C7 — exponential backoff, retry budget, terminal failure record -/

/-- Behaviour of the attempt loop from attempt number `a` with `fuel`
attempts left: the sleeps performed are exactly the backoff formula at
the failed attempt numbers `a, a+1, ...`, and if the loop exhausts all
attempts the single appended record is the `ok=false` one and every
attempt slept. -/
theorem runAttempts_spec (oracle : Nat → Option String) (idx : Int) (batch : List String) :
    ∀ (fuel a : Nat),
      ∃ k, k ≤ fuel ∧
        (runAttempts oracle idx batch a fuel).sleeps = (List.range' a k).map waitSeconds ∧
        ((runAttempts oracle idx batch a fuel).result = none →
          k = fuel ∧ (runAttempts oracle idx batch a fuel).recs =
            [⟨idx, false, none, some "max retries reached"⟩]) := by
  intro fuel
  induction fuel with
  | zero =>
    intro a
    exact ⟨0, Nat.le_refl 0, rfl, fun _ => ⟨rfl, rfl⟩⟩
  | succ fuel ih =>
    intro a
    cases hres : (oracle a).bind (fun t => parseResponse t batch) with
    | some parts =>
      refine ⟨0, Nat.zero_le _, ?_, ?_⟩
      · show (runAttempts oracle idx batch a (fuel + 1)).sleeps = []
        rw [runAttempts, hres]
      · intro habs
        rw [show (runAttempts oracle idx batch a (fuel + 1)).result = some parts by
          rw [runAttempts, hres]] at habs
        exact Option.noConfusion habs
    | none =>
      obtain ⟨k, hk, hs, himp⟩ := ih (a + 1)
      refine ⟨k + 1, Nat.succ_le_succ hk, ?_, ?_⟩
      · show (runAttempts oracle idx batch a (fuel + 1)).sleeps = _
        rw [runAttempts, hres]
        rw [List.range'_succ, List.map_cons, ← hs]
      · intro hnone
        rw [show (runAttempts oracle idx batch a (fuel + 1)).result =
            (runAttempts oracle idx batch (a + 1) fuel).result by
          rw [runAttempts, hres]] at hnone
        obtain ⟨hkf, hrecs⟩ := himp hnone
        refine ⟨by rw [hkf], ?_⟩
        rw [show (runAttempts oracle idx batch a (fuel + 1)).recs =
            (runAttempts oracle idx batch (a + 1) fuel).recs by
          rw [runAttempts, hres]]
        exact hrecs

/-- C7: after the failure of attempt number `attempt` (1-based) the
worker sleeps exactly `min(2^attempt, 30) + 0.2·attempt` seconds
(`waitSeconds`); at most `maxRetries` attempts are made, and when the
whole budget fails the batch appends exactly one `ok=false` checkpoint
record ("max retries reached") and raises. -/
theorem translate_one_batch_backoff (oracle : Nat → Option String) (idx : Int)
    (batch : List String) (maxRetries : Nat) :
    ∃ k, k ≤ maxRetries ∧
      (translateOneBatch oracle idx batch maxRetries).sleeps =
        (List.range' 1 k).map waitSeconds ∧
      ((translateOneBatch oracle idx batch maxRetries).result = none →
        k = maxRetries ∧
        (translateOneBatch oracle idx batch maxRetries).recs =
          [⟨idx, false, none, some "max retries reached"⟩]) :=
  runAttempts_spec oracle idx batch maxRetries 1

/-- Witness for C7: a batch whose every attempt fails, with a retry
budget of 2, sleeps the formula at attempts 1 and 2 and appends only the
failure record. -/
theorem translate_one_batch_backoff_witness :
    (translateOneBatch (fun _ => none) 1 ["a"] 2).sleeps =
      [waitSeconds 1, waitSeconds 2] ∧
    (translateOneBatch (fun _ => none) 1 ["a"] 2).recs =
      [⟨1, false, none, some "max retries reached"⟩] := by
  obtain ⟨k, hk, hs, himp⟩ := translate_one_batch_backoff (fun _ => none) 1 ["a"] 2
  obtain ⟨hk2, hrecs⟩ := himp rfl
  subst hk2
  exact ⟨by rw [hs]; rfl, hrecs⟩

/-! ## C6 — the pre-flight self-test precedes all dispatch -/

/-- C6: in every run the very first API-facing event is the self-test
call — so it precedes every batch dispatch and every checkpoint write —
and when the self-test fails (raised call or blank response text) the run
stops with an error having produced NO other event: no batch was
attempted and no checkpoint record written. -/
theorem selftest_precedes_dispatch (inp : PipeInput) :
    ((translate_epub_texts inp).1.head? = some Event.selfTestCall) ∧
    (∀ e, openai_self_test inp.selfTest = .error e →
      (translate_epub_texts inp).1 = [Event.selfTestCall] ∧
      (translate_epub_texts inp).2 = .error e) := by
  constructor
  · simp only [translate_epub_texts]
    cases openai_self_test inp.selfTest with
    | error e => rfl
    | ok t =>
      dsimp only
      split
      · rfl
      · split <;> first | rfl | (split <;> rfl)
  · intro e he
    simp [translate_epub_texts, he]

/-- Witness for C6: a run whose self-test returns blank text produces
only the self-test event. -/
theorem selftest_precedes_dispatch_witness :
    (translate_epub_texts
      ⟨[[MNode.text "hello"]], 0, 3500, 10, 7, some "", fun _ _ => none, []⟩).1 =
      [Event.selfTestCall] :=
  ((selftest_precedes_dispatch
      ⟨[[MNode.text "hello"]], 0, 3500, 10, 7, some "", fun _ _ => none, []⟩).2
    "self-test returned blank output" rfl).1

/-! ## C2 — reassembly walk order vs extraction order -/

/-- C2: the reassembler does NOT walk the handles in the order the
extractor produced the fragments.  On `twoDocExample` the extractor's
production order is `a` (doc 0 node), `b` (doc 0 alt), `c` (doc 1 node)
— that is what gets sent for translation — but the replacement loops walk
ALL documents' text nodes first and only then all documents' alt
attributes, so document 1's text node receives the translation of
document 0's alt text and vice versa.  `specReassemble` (the walk the
claim describes) differs from the code's `reassemble` on this input. -/
theorem reassemble_misaligns_documents :
    (extractAll twoDocExample 0).texts = ["a", "b", "c"] ∧
    reassemble (extractAll twoDocExample 0).node_refs (extractAll twoDocExample 0).alt_refs
      ["A", "B", "C"] 3 =
      [(⟨0, FragKind.node, 0, "a"⟩, "A"), (⟨1, FragKind.node, 0, "c"⟩, "B"),
        (⟨0, FragKind.attr, 0, "b"⟩, "C")] ∧
    specReassemble (extractAll twoDocExample 0).ref_seq ["A", "B", "C"] 3 =
      [(⟨0, FragKind.node, 0, "a"⟩, "A"), (⟨0, FragKind.attr, 0, "b"⟩, "B"),
        (⟨1, FragKind.node, 0, "c"⟩, "C")] ∧
    reassemble (extractAll twoDocExample 0).node_refs (extractAll twoDocExample 0).alt_refs
      ["A", "B", "C"] 3 ≠
      specReassemble (extractAll twoDocExample 0).ref_seq ["A", "B", "C"] 3 := by
  have hext : extractAll twoDocExample 0 =
      ⟨[⟨0, FragKind.node, 0, "a"⟩, ⟨1, FragKind.node, 0, "c"⟩],
        [⟨0, FragKind.attr, 0, "b"⟩],
        [⟨0, FragKind.node, 0, "a"⟩, ⟨0, FragKind.attr, 0, "b"⟩, ⟨1, FragKind.node, 0, "c"⟩],
        ["a", "b", "c"], 3⟩ := by
    simp [extractAll, extractGo, twoDocExample, iter_text_nodes, nodeTextsList, nodeTexts,
      extract_alt_texts, altTextsList, altTexts, fragTake, TRANSLATE_ALT]
  rw [hext]
  decide
